import Mathlib

/-!
Verification development for the alumni-directory web application
(`src/app.py`): public submission, admin moderation (approve / edit /
delete), approved-directory search, CSV + photo zip export, and the
registration bootstrap rule.

Shallow embedding conventions:
* Python strings are modelled as `List Char` (`Str`); `str.strip` is
  `pyStrip`, ASCII case folding is `asciiLower` (SQLite `LIKE` and the
  extension allow-list both fold only ASCII letters).
* The sqlite `alumni` and `users` tables are Lean lists of structures;
  `AUTOINCREMENT` ids are carried as `nextId` counters in `AppState`.
  The upload directory is the list `files` of stored filenames.
* A record's `photo` column: the empty list models the empty string that
  `submit` stores when no photo was uploaded (and which every code path
  tests with Python truthiness).
* Externally generated values (the `os.times`-based filename, werkzeug's
  `secure_filename`, password hashes, `CURRENT_TIMESTAMP`) are passed in
  as explicit parameters (`storedName`, `pwHash`, `now`): the code never
  inspects their structure.
* Filesystem side effects of one request are additionally returned as an
  event trace (`Ev`) so that the ordering of photo-file deletion against
  the row mutation can be stated.
-/

/-- Python strings, modelled as lists of characters. -/
abbrev Str := List Char

/-- ASCII lower-casing of one character, as used by `.lower()` on
extensions and by SQLite's `LIKE` (which folds only ASCII `A`-`Z`). -/
def asciiLower (c : Char) : Char :=
  if 'A' ≤ c ∧ c ≤ 'Z' then Char.ofNat (c.toNat + 32) else c

/-- `str.strip()`: drop leading and trailing whitespace. -/
def pyStrip (s : Str) : Str :=
  ((s.dropWhile Char.isWhitespace).reverse.dropWhile Char.isWhitespace).reverse

/-- The suffix after the last dot, i.e. `filename.rsplit(".", 1)[1]` when a
dot is present (`none` models the `"." in filename` guard failing). -/
def afterLastDot : Str → Option Str
  | [] => none
  | c :: cs =>
    match afterLastDot cs with
    | some r => some r
    | none => if c = '.' then some cs else none

/-- `ALLOWED_EXT = {"png", "jpg", "jpeg", "gif"}` from the config block. -/
def ALLOWED_EXT : List Str := ["png".toList, "jpg".toList, "jpeg".toList, "gif".toList]

/-- `allowed_file` from `app.py`:
`"." in filename and filename.rsplit(".", 1)[1].lower() in ALLOWED_EXT`. -/
def allowed_file (filename : Str) : Bool :=
  match afterLastDot filename with
  | none => false
  | some ext => ALLOWED_EXT.contains (ext.map asciiLower)

/-- Does `f` hold on some suffix of the list (the list itself and `[]`
included)?  Helper for the `%` wildcard of SQL `LIKE`. -/
def anyTail (f : Str → Bool) : Str → Bool
  | [] => f []
  | c :: ts => f (c :: ts) || anyTail f ts

/-- SQLite `LIKE` pattern matching (first argument the pattern, second the
text): `%` matches any sequence, `_` any single character, and plain
characters match ASCII-case-insensitively — SQLite's default `LIKE`
semantics for the `fullName LIKE ?` query in `api_approved`. -/
def likeMatch : Str → Str → Bool
  | [], t => t.isEmpty
  | p :: ps, t =>
    if p == '%' then anyTail (likeMatch ps) t
    else
      match t with
      | [] => false
      | c :: ts => (p == '_' || asciiLower p == asciiLower c) && likeMatch ps ts

/-- `text LIKE '%' + q + '%'` — the filter the code builds with
`like = f"%{q}%"`. -/
def sqlLikeContains (text q : Str) : Bool :=
  likeMatch ('%' :: (q ++ ['%'])) text

/-- Written from the spec's words, for comparison with the SQL behaviour:
"records whose name contains `q` case-insensitively" — plain substring
containment after ASCII case folding (no wildcard reading of `q`). -/
def specContains (text q : Str) : Bool :=
  anyTail (fun suf => (q.map asciiLower).isPrefixOf (suf.map asciiLower)) text

/-- One row of the `alumni` table (`created_at` abstracted to a `Nat`).
`photo = []` models the empty-string photo column of a record submitted
without a photo. -/
structure Record where
  id : Nat
  fullName : Str
  phone : Str
  neighborhood : Str
  photo : Str
  approved : Bool
  created_at : Nat
deriving DecidableEq

/-- One row of the `users` table. -/
structure User where
  id : Nat
  username : Str
  password_hash : Str
  is_admin : Bool
deriving DecidableEq

/-- Whole-application state: both tables, the upload directory, and the
`AUTOINCREMENT` counters. -/
structure AppState where
  alumni : List Record
  users : List User
  files : List Str
  nextId : Nat
  nextUserId : Nat
deriving DecidableEq

/-- Outcome of an admin API request, as the HTTP layer reports it:
`okStatus s` is `jsonify({"status": s})` with code 200, `okRecord` is the
record JSON with code 200, `notFound` is the 404 response, `badRequest`
the 400 response. -/
inductive ApiResp where
  | okStatus (status : Str)
  | okRecord (r : Record)
  | notFound
  | badRequest (msg : Str)
deriving DecidableEq

/-- Observable side effects of one request on the shared stores, in
program order: file writes/unlinks in the upload folder and row
mutations in the `alumni` table. -/
inductive Ev where
  | saveFile (name : Str)
  | unlinkFile (name : Str)
  | deleteRow (id : Nat)
  | updateRow (id : Nat)
deriving DecidableEq

/-- `photo_file.save(...)`: writing a file makes its name present in the
upload directory (overwriting an existing file of the same name). -/
def addFile (fs : List Str) (n : Str) : List Str :=
  if fs.contains n then fs else fs ++ [n]

/-- `SELECT * FROM alumni WHERE id=? ... fetchone()`. -/
def get_record (s : AppState) (aid : Nat) : Option Record :=
  s.alumni.find? (fun r => r.id == aid)

/-- `GET /api/admin/<id>`: the only admin item method that checks
existence and returns 404. -/
def api_admin_get (s : AppState) (aid : Nat) : ApiResp :=
  match get_record s aid with
  | none => ApiResp.notFound
  | some r => ApiResp.okRecord r

/-- `POST /api/admin/approve/<id>`: `UPDATE alumni SET approved=1 WHERE
id=?` and an unconditional `{"status": "approved"}` — no existence
check. -/
def api_approve (s : AppState) (aid : Nat) : AppState × ApiResp :=
  ({ s with
      alumni := s.alumni.map (fun r => if r.id == aid then { r with approved := true } else r) },
   ApiResp.okStatus "approved".toList)

/-- `DELETE /api/admin/<id>`: select the row's photo, attempt to unlink it
when non-empty (`FileNotFoundError` is swallowed, modelled by `List.erase`
being the identity on a missing name), then `DELETE FROM alumni WHERE
id=?`, and an unconditional `{"status": "deleted"}`. -/
def api_admin_delete (s : AppState) (aid : Nat) : AppState × List Ev × ApiResp :=
  let step : List Str × List Ev :=
    match get_record s aid with
    | some r =>
      if r.photo.isEmpty then (s.files, [])
      else (s.files.erase r.photo, [Ev.unlinkFile r.photo])
    | none => (s.files, [])
  ({ s with
      files := step.1,
      alumni := s.alumni.filter (fun r => !(r.id == aid)) },
   step.2 ++ [Ev.deleteRow aid], ApiResp.okStatus "deleted".toList)

/-- `UPDATE alumni SET fullName=?, phone=?, neighborhood=? WHERE id=?`. -/
def updateTextRow (alumni : List Record) (aid : Nat) (fullName phone neighborhood : Str) :
    List Record :=
  alumni.map (fun r =>
    if r.id == aid then
      { r with fullName := fullName, phone := phone, neighborhood := neighborhood }
    else r)

/-- `UPDATE alumni SET fullName=?, phone=?, neighborhood=?, photo=? WHERE id=?`. -/
def updateFullRow (alumni : List Record) (aid : Nat) (fullName phone neighborhood photo : Str) :
    List Record :=
  alumni.map (fun r =>
    if r.id == aid then
      { r with fullName := fullName, phone := phone, neighborhood := neighborhood,
               photo := photo }
    else r)

/-- `PUT /api/admin/<id>` with a multipart body.  `photo` is the uploaded
file's original filename (`none` for an absent file field, `[]` for an
empty one — both make `photo_file and photo_file.filename` falsy);
`storedName` is the generated `f"{int(os.times()[4]*1000)}_{secure_filename(...)}"`.
When a photo is accepted: the new file is saved first, then the old photo
(if any) is unlinked, then the row is updated (in that program order). -/
def api_admin_put_multipart (s : AppState) (aid : Nat)
    (fullName phone neighborhood : Str) (photo : Option Str) (storedName : Str) :
    AppState × List Ev × ApiResp :=
  let fullName := pyStrip fullName
  let phone := pyStrip phone
  let neighborhood := pyStrip neighborhood
  match photo with
  | some orig =>
    if orig.isEmpty then
      ({ s with alumni := updateTextRow s.alumni aid fullName phone neighborhood },
       [Ev.updateRow aid], ApiResp.okStatus "updated".toList)
    else if allowed_file orig then
      let files1 := addFile s.files storedName
      let step : List Str × List Ev :=
        match get_record s aid with
        | some r =>
          if r.photo.isEmpty then (files1, [])
          else (files1.erase r.photo, [Ev.unlinkFile r.photo])
        | none => (files1, [])
      ({ s with
          files := step.1,
          alumni := updateFullRow s.alumni aid fullName phone neighborhood storedName },
       Ev.saveFile storedName :: step.2 ++ [Ev.updateRow aid],
       ApiResp.okStatus "updated".toList)
    else
      (s, [], ApiResp.badRequest "File type not allowed".toList)
  | none =>
    ({ s with alumni := updateTextRow s.alumni aid fullName phone neighborhood },
     [Ev.updateRow aid], ApiResp.okStatus "updated".toList)

/-- `PUT /api/admin/<id>` with a JSON body: text fields only, the photo
column is never touched. -/
def api_admin_put_json (s : AppState) (aid : Nat)
    (fullName phone neighborhood : Str) : AppState × ApiResp :=
  ({ s with
      alumni := updateTextRow s.alumni aid (pyStrip fullName) (pyStrip phone)
        (pyStrip neighborhood) },
   ApiResp.okStatus "updated".toList)

/-- `ORDER BY fullName` — lexicographic comparison of the name columns
(SQLite's binary collation on UTF-8 agrees with code-point order). -/
def nameLe (a b : Record) : Prop := a.fullName ≤ b.fullName

instance : DecidableRel nameLe :=
  fun a b => inferInstanceAs (Decidable (a.fullName ≤ b.fullName))

instance : IsTotal Record nameLe := ⟨fun a b => le_total a.fullName b.fullName⟩

instance : IsTrans Record nameLe := ⟨fun _ _ _ hab hbc => le_trans hab hbc⟩

/-- `GET /api/admin/approved?q=`: strip the query; with a non-empty query
run `SELECT * FROM alumni WHERE approved=1 AND fullName LIKE ? ORDER BY
fullName` with pattern `f"%{q}%"`, otherwise the same without the `LIKE`
conjunct. -/
def api_approved (s : AppState) (q : Str) : List Record :=
  let q := pyStrip q
  if q.isEmpty then
    List.insertionSort nameLe (s.alumni.filter (fun r => r.approved))
  else
    List.insertionSort nameLe
      (s.alumni.filter (fun r => r.approved && sqlLikeContains r.fullName q))

/-- Result of a `POST /submit`: the validation redirect, the
file-type-rejection redirect, or the redirect to the thank-you view
carrying the new id. -/
inductive SubmitOut where
  | validationError
  | fileTypeError
  | thankyou (id : Nat)
deriving DecidableEq

/-- `INSERT INTO alumni (fullName, phone, neighborhood, photo, approved)
VALUES (?,?,?,?,0)`. -/
def insertRow (s : AppState) (fullName phone neighborhood photo : Str) (now : Nat) : AppState :=
  { s with
    alumni := s.alumni ++ [⟨s.nextId, fullName, phone, neighborhood, photo, false, now⟩],
    nextId := s.nextId + 1 }

/-- `POST /submit`: strip the three text fields; reject when name or phone
is empty; when a photo with a non-empty filename is present, reject a
disallowed extension before any write, otherwise save the file under
`storedName`; finally insert the pending row (photo column the stored
name, or the empty string when no photo was uploaded). -/
def submit (s : AppState) (fullName phone neighborhood : Str) (photo : Option Str)
    (storedName : Str) (now : Nat) : AppState × SubmitOut :=
  let fullName := pyStrip fullName
  let phone := pyStrip phone
  let neighborhood := pyStrip neighborhood
  if fullName.isEmpty || phone.isEmpty then (s, SubmitOut.validationError)
  else
    match photo with
    | some orig =>
      if orig.isEmpty then
        (insertRow s fullName phone neighborhood [] now, SubmitOut.thankyou s.nextId)
      else if allowed_file orig then
        (insertRow { s with files := addFile s.files storedName }
          fullName phone neighborhood storedName now, SubmitOut.thankyou s.nextId)
      else (s, SubmitOut.fileTypeError)
    | none =>
      (insertRow s fullName phone neighborhood [] now, SubmitOut.thankyou s.nextId)

/-- The archive `GET /download` streams: the parsed `alumni.csv` rows and
the arcnames of the photo entries. -/
structure ZipOut where
  csv : List (List Str)
  photoEntries : List Str
deriving DecidableEq

/-- The fixed CSV header row. -/
def csvHeader : List Str :=
  ["id".toList, "fullName".toList, "phone".toList, "neighborhood".toList,
   "photo_filename".toList]

/-- One CSV data row: `[r["id"], r["fullName"], r["phone"],
r["neighborhood"], r["photo"] or ""]` (the id serialized in decimal by
`csv.writer`; an empty photo column stays the empty string). -/
def csvRow (r : Record) : List Str :=
  [Nat.toDigits 10 r.id, r.fullName, r.phone, r.neighborhood, r.photo]

/-- `GET /download`: select the approved rows ordered by name, write the
header and one CSV row per record, then add `photos/<name>` entries for
exactly those referenced photo files that exist in the upload directory
(`if r["photo"]: ... if p.exists()`). -/
def download_zip (s : AppState) : ZipOut :=
  let rows := List.insertionSort nameLe (s.alumni.filter (fun r => r.approved))
  { csv := csvHeader :: rows.map csvRow,
    photoEntries :=
      (rows.filter (fun r => !r.photo.isEmpty && s.files.contains r.photo)).map
        (fun r => "photos/".toList ++ r.photo) }

/-- Outcome of a `POST /register`. -/
inductive RegOut where
  | validationError
  | created
  | usernameTaken
deriving DecidableEq

/-- The Python truthiness test `ENV_ADMIN and username == ENV_ADMIN`:
an unset variable is `none`, an empty string is falsy. -/
def envAdminMatches (envAdmin : Option Str) (username : Str) : Bool :=
  match envAdmin with
  | some a => !a.isEmpty && username == a
  | none => false

/-- `POST /register`: strip the username; reject empty username/password;
compute `is_admin` (the environment override, else whether `SELECT
COUNT(*) FROM users` is zero); the `INSERT` raises `IntegrityError` on a
duplicate username, which is caught and leaves the table unchanged.
`pwHash` stands for `generate_password_hash(password)`. -/
def register (users : List User) (envAdmin : Option Str) (username password pwHash : Str)
    (newId : Nat) : List User × RegOut :=
  let username := pyStrip username
  if username.isEmpty || password.isEmpty then (users, RegOut.validationError)
  else
    let isAdminFlag : Bool :=
      if envAdminMatches envAdmin username then true else users.length == 0
    if users.any (fun u => u.username == username) then (users, RegOut.usernameTaken)
    else (users ++ [⟨newId, username, pwHash, isAdminFlag⟩], RegOut.created)

/-- Is this event an unlink in the upload directory? -/
def evIsUnlink : Ev → Bool
  | Ev.unlinkFile _ => true
  | _ => false

/-- Is this event a file write in the upload directory? -/
def evIsSave : Ev → Bool
  | Ev.saveFile _ => true
  | _ => false

/-- Is this event the `DELETE FROM alumni` row removal? -/
def evIsDeleteRow : Ev → Bool
  | Ev.deleteRow _ => true
  | _ => false

/-- Is this event the `UPDATE alumni` row mutation? -/
def evIsUpdateRow : Ev → Bool
  | Ev.updateRow _ => true
  | _ => false

/-- `occursAfter tr p q`: the first `p`-event of the trace exists and comes
strictly after the first `q`-event (which must then also exist). -/
def occursAfter (tr : List Ev) (p q : Ev → Bool) : Bool :=
  match tr.findIdx? p, tr.findIdx? q with
  | some i, some j => j < i
  | _, _ => false

/-- The empty application state (fresh database, empty upload folder). -/
def s0 : AppState :=
  { alumni := [], users := [], files := [], nextId := 1, nextUserId := 1 }

/-- A small concrete state: one approved record with a photo on disk, one
pending record without a photo, one registered admin user. -/
def sW : AppState :=
  { alumni :=
      [⟨1, "Jane".toList, "555".toList, "Riverside".toList, "j.jpg".toList, true, 0⟩,
       ⟨2, "Al".toList, "666".toList, "South".toList, [], false, 1⟩],
    users := [⟨1, "alice".toList, "H".toList, true⟩],
    files := ["j.jpg".toList],
    nextId := 3, nextUserId := 2 }

/-- Every row of `s.alumni` fails the id test when the lookup found
nothing. -/
lemma beq_id_false_of_get_record_none {s : AppState} {aid : Nat}
    (h : get_record s aid = none) : ∀ r ∈ s.alumni, (r.id == aid) = false := by
  intro r hr
  have h' : s.alumni.find? (fun r => r.id == aid) = none := h
  have := List.find?_eq_none.mp h' r hr
  simpa using this

/-- C1 counterexample: on the empty store, id 5 has no Record, yet
`approve(5)`, `delete(5)` and `edit(5, fields)` all answer the 200
status body rather than a 404 NotFound. -/
theorem approve_edit_delete_missing_id_counterexample :
    get_record s0 5 = none ∧
    (api_approve s0 5).2 = ApiResp.okStatus "approved".toList ∧
    (api_approve s0 5).2 ≠ ApiResp.notFound ∧
    (api_admin_delete s0 5).2.2 = ApiResp.okStatus "deleted".toList ∧
    (api_admin_delete s0 5).2.2 ≠ ApiResp.notFound ∧
    (api_admin_put_json s0 5 "x".toList "y".toList "z".toList).2
      = ApiResp.okStatus "updated".toList ∧
    (api_admin_put_json s0 5 "x".toList "y".toList "z".toList).2 ≠ ApiResp.notFound := by
  decide

/-- C1 (amended): on an id with no Record, `approve`, `delete` and the
JSON-body `edit` each report success and leave the state unchanged
(delete still emits its unconditional row-removal statement); only the
GET item endpoint reports NotFound. -/
theorem missing_id_operations_report_success (s : AppState) (aid : Nat)
    (h : get_record s aid = none) :
    api_approve s aid = (s, ApiResp.okStatus "approved".toList) ∧
    api_admin_delete s aid = (s, [Ev.deleteRow aid], ApiResp.okStatus "deleted".toList) ∧
    (∀ fN ph nb, api_admin_put_json s aid fN ph nb
      = (s, ApiResp.okStatus "updated".toList)) ∧
    api_admin_get s aid = ApiResp.notFound := by
  have hall := beq_id_false_of_get_record_none h
  have hmap : ∀ (f : Record → Record),
      (s.alumni.map (fun r => if r.id == aid then f r else r)) = s.alumni := by
    intro f
    have : (s.alumni.map (fun r => if r.id == aid then f r else r)) = s.alumni.map id :=
      List.map_congr_left (fun a ha => by simp [hall a ha])
    simpa using this
  refine ⟨?_, ?_, ?_, ?_⟩
  · show ({ s with alumni := _ }, _) = _
    rw [show (s.alumni.map (fun r => if r.id == aid then { r with approved := true } else r))
          = s.alumni from hmap _]
  · have hfilter : s.alumni.filter (fun r => !(r.id == aid)) = s.alumni :=
      List.filter_eq_self.mpr (fun a ha => by simp [hall a ha])
    simp [api_admin_delete, h, hfilter]
  · intro fN ph nb
    have hupd : updateTextRow s.alumni aid (pyStrip fN) (pyStrip ph) (pyStrip nb)
        = s.alumni := by
      unfold updateTextRow
      exact hmap _
    show ({ s with alumni := _ }, _) = _
    rw [hupd]
  · unfold api_admin_get
    rw [h]

/-- Witness for `missing_id_operations_report_success` at the empty
state and id 5. -/
theorem missing_id_operations_report_success_witness :
    api_approve s0 5 = (s0, ApiResp.okStatus "approved".toList) ∧
    api_admin_get s0 5 = ApiResp.notFound :=
  ⟨(missing_id_operations_report_success s0 5 (by decide)).1,
   (missing_id_operations_report_success s0 5 (by decide)).2.2.2⟩

/-- C10: `approve(id)` mutates at most the `approved` column of the row
with the given id: users, files and the id counter are untouched, the
table keeps its length, and every row keeps every field except that the
targeted row's `approved` becomes true. -/
theorem approve_frame (s : AppState) (aid : Nat) :
    (api_approve s aid).1.users = s.users ∧
    (api_approve s aid).1.files = s.files ∧
    (api_approve s aid).1.nextId = s.nextId ∧
    (api_approve s aid).1.alumni.length = s.alumni.length ∧
    ∀ i (hi : i < s.alumni.length) (hi2 : i < (api_approve s aid).1.alumni.length),
      ((api_approve s aid).1.alumni.get ⟨i, hi2⟩).id = (s.alumni.get ⟨i, hi⟩).id ∧
      ((api_approve s aid).1.alumni.get ⟨i, hi2⟩).fullName = (s.alumni.get ⟨i, hi⟩).fullName ∧
      ((api_approve s aid).1.alumni.get ⟨i, hi2⟩).phone = (s.alumni.get ⟨i, hi⟩).phone ∧
      ((api_approve s aid).1.alumni.get ⟨i, hi2⟩).neighborhood
        = (s.alumni.get ⟨i, hi⟩).neighborhood ∧
      ((api_approve s aid).1.alumni.get ⟨i, hi2⟩).photo = (s.alumni.get ⟨i, hi⟩).photo ∧
      ((api_approve s aid).1.alumni.get ⟨i, hi2⟩).created_at
        = (s.alumni.get ⟨i, hi⟩).created_at ∧
      ((s.alumni.get ⟨i, hi⟩).id ≠ aid →
        ((api_approve s aid).1.alumni.get ⟨i, hi2⟩).approved = (s.alumni.get ⟨i, hi⟩).approved) ∧
      ((s.alumni.get ⟨i, hi⟩).id = aid →
        ((api_approve s aid).1.alumni.get ⟨i, hi2⟩).approved = true) := by
  refine ⟨rfl, rfl, rfl, by simp [api_approve], ?_⟩
  intro i hi hi2
  simp only [api_approve, List.get_eq_getElem, List.getElem_map]
  by_cases hc : (s.alumni[i]).id = aid
  · simp [hc]
  · simp [hc]

/-- Witness for `approve_frame`: the pending record of `sW` keeps all its
fields when record 1 is approved, and record 1 itself keeps its photo. -/
theorem approve_frame_witness :
    (api_approve sW 1).1.users = sW.users ∧
    ((api_approve sW 1).1.alumni.get ⟨0, by decide⟩).photo
      = (sW.alumni.get ⟨0, by decide⟩).photo ∧
    ((api_approve sW 1).1.alumni.get ⟨1, by decide⟩).approved
      = (sW.alumni.get ⟨1, by decide⟩).approved :=
  ⟨(approve_frame sW 1).1,
   ((approve_frame sW 1).2.2.2.2 0 (by decide) (by decide)).2.2.2.2.1,
   (((approve_frame sW 1).2.2.2.2 1 (by decide) (by decide)).2.2.2.2.2.2.1 (by decide))⟩

/-- Saving a file makes it present in the upload directory. -/
lemma mem_addFile_self (fs : List Str) (n : Str) : n ∈ addFile fs n := by
  unfold addFile
  cases hcon : fs.contains n with
  | true => simpa using List.elem_iff.mp hcon
  | false => simp

/-- Saving a file preserves distinctness of the directory listing. -/
lemma nodup_addFile {fs : List Str} (h : fs.Nodup) (n : Str) : (addFile fs n).Nodup := by
  unfold addFile
  cases hcon : fs.contains n with
  | true => simpa using h
  | false =>
    have hn : n ∉ fs := by
      intro hmem
      have : fs.contains n = true := List.elem_iff.mpr hmem
      rw [this] at hcon
      exact Bool.noConfusion hcon
    have hd : fs.Disjoint [n] := by
      intro a ha hb
      rw [List.mem_singleton] at hb
      exact hn (hb ▸ ha)
    simpa using List.Nodup.append h (List.nodup_singleton n) hd

/-- C3 counterexample: deleting record 1 of `sW` unlinks its photo
strictly before the row removal, so the cleanup is not performed after
the row is removed as claimed. -/
theorem delete_cleanup_order_counterexample :
    (api_admin_delete sW 1).2.1 = [Ev.unlinkFile "j.jpg".toList, Ev.deleteRow 1] ∧
    occursAfter (api_admin_delete sW 1).2.1 evIsUnlink evIsDeleteRow = false := by
  decide

/-- C3 (amended): `delete(id)` on an existing Record removes the row and,
if the Record referenced a photo, unlinks that file — the cleanup
happening before (not after) the row removal; a referenced file missing
from disk is tolerated (no membership hypothesis on `s.files` is needed
for the success result), and deleting a record with no photo succeeds
without touching the upload directory. -/
theorem delete_removes_row_and_photo (s : AppState) (aid : Nat) (r : Record)
    (hfind : get_record s aid = some r) (hnodup : s.files.Nodup) :
    (api_admin_delete s aid).2.2 = ApiResp.okStatus "deleted".toList ∧
    get_record (api_admin_delete s aid).1 aid = none ∧
    (r.photo = [] → (api_admin_delete s aid).2.1 = [Ev.deleteRow aid] ∧
      (api_admin_delete s aid).1.files = s.files) ∧
    (r.photo ≠ [] →
      (api_admin_delete s aid).2.1 = [Ev.unlinkFile r.photo, Ev.deleteRow aid] ∧
      occursAfter (api_admin_delete s aid).2.1 evIsDeleteRow evIsUnlink = true ∧
      r.photo ∉ (api_admin_delete s aid).1.files) := by
  refine ⟨rfl, ?_, ?_, ?_⟩
  · apply List.find?_eq_none.mpr
    intro x hx
    have hx' : x ∈ s.alumni.filter (fun r => !(r.id == aid)) := hx
    simpa using (List.mem_filter.mp hx').2
  · intro hempty
    have he : r.photo.isEmpty = true := by simp [hempty]
    constructor <;> simp [api_admin_delete, hfind, he]
  · intro hne
    have he : r.photo.isEmpty = false := List.isEmpty_eq_false.mpr hne
    have htrace : (api_admin_delete s aid).2.1
        = [Ev.unlinkFile r.photo, Ev.deleteRow aid] := by
      simp [api_admin_delete, hfind, he]
    have hfiles : (api_admin_delete s aid).1.files = s.files.erase r.photo := by
      simp [api_admin_delete, hfind, he]
    refine ⟨htrace, ?_, ?_⟩
    · rw [htrace]; rfl
    · rw [hfiles]; exact hnodup.not_mem_erase

/-- Witness for `delete_removes_row_and_photo` at `sW`, record 1. -/
theorem delete_removes_row_and_photo_witness :
    get_record (api_admin_delete sW 1).1 1 = none ∧
    (api_admin_delete sW 1).2.1 = [Ev.unlinkFile "j.jpg".toList, Ev.deleteRow 1] ∧
    "j.jpg".toList ∉ (api_admin_delete sW 1).1.files := by
  have h := delete_removes_row_and_photo sW 1
      ⟨1, "Jane".toList, "555".toList, "Riverside".toList, "j.jpg".toList, true, 0⟩
      (by decide) (by decide)
  exact ⟨h.2.1, (h.2.2.2 (by decide)).1, (h.2.2.2 (by decide)).2.2⟩

/-- C2 counterexample: replacing record 1's photo in `sW` unlinks the old
file after the save but strictly before the row `UPDATE`, so the old
photo is not deleted "only after the Record row has been updated". -/
theorem edit_photo_cleanup_order_counterexample :
    (api_admin_put_multipart sW 1 "J".toList "5".toList "R".toList
        (some "new.png".toList) "7_new.png".toList).2.1
      = [Ev.saveFile "7_new.png".toList, Ev.unlinkFile "j.jpg".toList, Ev.updateRow 1] ∧
    occursAfter (api_admin_put_multipart sW 1 "J".toList "5".toList "R".toList
        (some "new.png".toList) "7_new.png".toList).2.1 evIsUnlink evIsUpdateRow
      = false := by
  decide

/-- C2 (amended): on an edit of an existing Record with an accepted new
photo, the old photo file is deleted only after the new photo is saved
but before (not after) the row update; after the edit succeeds the old
photo's stored file no longer exists in the upload directory, the new one
does, and every row with the edited id references the new photo. -/
theorem edit_replaces_photo_safely (s : AppState) (aid : Nat)
    (fN ph nb orig storedName : Str) (r : Record)
    (hfind : get_record s aid = some r) (hphoto : r.photo ≠ [])
    (horig : orig ≠ []) (hallow : allowed_file orig = true)
    (hnew : storedName ≠ r.photo) (hnodup : s.files.Nodup) :
    (api_admin_put_multipart s aid fN ph nb (some orig) storedName).2.1
      = [Ev.saveFile storedName, Ev.unlinkFile r.photo, Ev.updateRow aid] ∧
    occursAfter (api_admin_put_multipart s aid fN ph nb (some orig) storedName).2.1
      evIsUnlink evIsSave = true ∧
    occursAfter (api_admin_put_multipart s aid fN ph nb (some orig) storedName).2.1
      evIsUpdateRow evIsUnlink = true ∧
    r.photo ∉ (api_admin_put_multipart s aid fN ph nb (some orig) storedName).1.files ∧
    storedName ∈ (api_admin_put_multipart s aid fN ph nb (some orig) storedName).1.files ∧
    (∀ rr ∈ (api_admin_put_multipart s aid fN ph nb (some orig) storedName).1.alumni,
      rr.id = aid → rr.photo = storedName) ∧
    (api_admin_put_multipart s aid fN ph nb (some orig) storedName).2.2
      = ApiResp.okStatus "updated".toList := by
  have horigE : orig.isEmpty = false := List.isEmpty_eq_false.mpr horig
  have hpE : r.photo.isEmpty = false := List.isEmpty_eq_false.mpr hphoto
  have htrace : (api_admin_put_multipart s aid fN ph nb (some orig) storedName).2.1
      = [Ev.saveFile storedName, Ev.unlinkFile r.photo, Ev.updateRow aid] := by
    simp [api_admin_put_multipart, horigE, hallow, hfind, hpE]
  have hfiles : (api_admin_put_multipart s aid fN ph nb (some orig) storedName).1.files
      = (addFile s.files storedName).erase r.photo := by
    simp [api_admin_put_multipart, horigE, hallow, hfind, hpE]
  have halumni : (api_admin_put_multipart s aid fN ph nb (some orig) storedName).1.alumni
      = updateFullRow s.alumni aid (pyStrip fN) (pyStrip ph) (pyStrip nb) storedName := by
    simp [api_admin_put_multipart, horigE, hallow, hfind, hpE]
  refine ⟨htrace, ?_, ?_, ?_, ?_, ?_, ?_⟩
  · rw [htrace]; rfl
  · rw [htrace]; rfl
  · rw [hfiles]; exact (nodup_addFile hnodup storedName).not_mem_erase
  · rw [hfiles]; exact (List.mem_erase_of_ne hnew).mpr (mem_addFile_self _ _)
  · intro rr hrr hid
    rw [halumni] at hrr
    unfold updateFullRow at hrr
    obtain ⟨a, ha, heq⟩ := List.mem_map.mp hrr
    by_cases hca : a.id = aid
    · rw [← heq]
      simp [hca]
    · have hb : (a.id == aid) = false := by simp [hca]
      rw [hb] at heq
      simp at heq
      rw [← heq] at hid
      exact absurd hid hca
  · simp [api_admin_put_multipart, horigE, hallow, hfind, hpE]

/-- Witness for `edit_replaces_photo_safely` at `sW`, record 1, new photo
`new.png` stored as `7_new.png`. -/
theorem edit_replaces_photo_safely_witness :
    "j.jpg".toList ∉ (api_admin_put_multipart sW 1 "J".toList "5".toList "R".toList
        (some "new.png".toList) "7_new.png".toList).1.files ∧
    "7_new.png".toList ∈ (api_admin_put_multipart sW 1 "J".toList "5".toList "R".toList
        (some "new.png".toList) "7_new.png".toList).1.files := by
  have h := edit_replaces_photo_safely sW 1 "J".toList "5".toList "R".toList
      "new.png".toList "7_new.png".toList
      ⟨1, "Jane".toList, "555".toList, "Riverside".toList, "j.jpg".toList, true, 0⟩
      (by decide) (by decide) (by decide) (by decide) (by decide) (by decide)
  exact ⟨h.2.2.2.1, h.2.2.2.2.1⟩

/-- Looking up the freshly inserted id finds exactly the new row, provided
no existing row already carries that id (which `AUTOINCREMENT`
guarantees). -/
lemma get_record_insertRow (s : AppState) (fN ph nb photo : Str) (now : Nat)
    (hfresh : ∀ r ∈ s.alumni, r.id ≠ s.nextId) :
    get_record (insertRow s fN ph nb photo now) s.nextId
      = some ⟨s.nextId, fN, ph, nb, photo, false, now⟩ := by
  have h1 : s.alumni.find? (fun r => r.id == s.nextId) = none :=
    List.find?_eq_none.mpr (fun x hx => by simp [hfresh x hx])
  show ((s.alumni ++ [(⟨s.nextId, fN, ph, nb, photo, false, now⟩ : Record)]).find?
      (fun r => r.id == s.nextId)) = _
  rw [List.find?_append, h1]
  simp [List.find?]

/-- C5: a valid submission (name and phone non-empty after trimming, any
photo either absent or of an allowed type) creates a pending Record:
`submit` answers the thank-you redirect with the new id and `get` on that
id returns a Record with `approved = false` and the three text fields
stored trimmed. -/
theorem submit_then_get (s : AppState) (fN ph nb : Str) (photo : Option Str)
    (storedName : Str) (now : Nat)
    (hname : pyStrip fN ≠ []) (hphone : pyStrip ph ≠ [])
    (hphoto : ∀ orig, photo = some orig → orig = [] ∨ allowed_file orig = true)
    (hfresh : ∀ r ∈ s.alumni, r.id ≠ s.nextId) :
    (submit s fN ph nb photo storedName now).2 = SubmitOut.thankyou s.nextId ∧
    ∃ photoName, get_record (submit s fN ph nb photo storedName now).1 s.nextId
      = some ⟨s.nextId, pyStrip fN, pyStrip ph, pyStrip nb, photoName, false, now⟩ := by
  have hnE : (pyStrip fN).isEmpty = false := List.isEmpty_eq_false.mpr hname
  have hpE : (pyStrip ph).isEmpty = false := List.isEmpty_eq_false.mpr hphone
  cases photo with
  | none =>
    refine ⟨by simp [submit, hnE, hpE], ⟨[], ?_⟩⟩
    have := get_record_insertRow s (pyStrip fN) (pyStrip ph) (pyStrip nb) [] now hfresh
    simpa [submit, hnE, hpE] using this
  | some orig =>
    cases ho : orig.isEmpty with
    | true =>
      refine ⟨by simp [submit, hnE, hpE, ho], ⟨[], ?_⟩⟩
      have := get_record_insertRow s (pyStrip fN) (pyStrip ph) (pyStrip nb) [] now hfresh
      simpa [submit, hnE, hpE, ho] using this
    | false =>
      have hne : orig ≠ [] := by
        intro h
        rw [h] at ho
        exact Bool.noConfusion ho
      have hall : allowed_file orig = true := by
        rcases hphoto orig rfl with h | h
        · exact absurd h hne
        · exact h
      refine ⟨by simp [submit, hnE, hpE, ho, hall], ⟨storedName, ?_⟩⟩
      have := get_record_insertRow { s with files := addFile s.files storedName }
          (pyStrip fN) (pyStrip ph) (pyStrip nb) storedName now hfresh
      simpa [submit, hnE, hpE, ho, hall] using this

/-- Witness for `submit_then_get`: a submission with untrimmed name and an
allowed photo on `sW`. -/
theorem submit_then_get_witness :
    (submit sW " Bo b ".toList "7".toList "N".toList (some "x.gif".toList)
        "3_x.gif".toList 9).2 = SubmitOut.thankyou 3 ∧
    ∃ photoName, get_record (submit sW " Bo b ".toList "7".toList "N".toList
        (some "x.gif".toList) "3_x.gif".toList 9).1 3
      = some ⟨3, "Bo b".toList, "7".toList, "N".toList, photoName, false, 9⟩ := by
  have h := submit_then_get sW " Bo b ".toList "7".toList "N".toList
      (some "x.gif".toList) "3_x.gif".toList 9 (by decide) (by decide)
      (fun orig ho => by
        injection ho with h2
        subst h2
        exact Or.inr (by decide))
      (by decide)
  exact ⟨h.1, h.2⟩

/-- C6: an edit that supplies no new photo — the multipart path with an
absent or empty file field, and the JSON path — answers success, writes
and deletes no file, and leaves every row's photo reference unchanged
while the targeted row's text fields take the (trimmed) supplied
values. -/
theorem edit_without_photo_preserves_photo (s : AppState) (aid : Nat)
    (fN ph nb storedName : Str) (photo : Option Str)
    (hno : photo = none ∨ photo = some []) :
    (api_admin_put_multipart s aid fN ph nb photo storedName).2.2
      = ApiResp.okStatus "updated".toList ∧
    (api_admin_put_multipart s aid fN ph nb photo storedName).1.files = s.files ∧
    (api_admin_put_multipart s aid fN ph nb photo storedName).1.alumni
      = (api_admin_put_json s aid fN ph nb).1.alumni ∧
    (∀ (i : Nat) (r : Record), s.alumni[i]? = some r →
      (api_admin_put_json s aid fN ph nb).1.alumni[i]? = some
        (if r.id = aid then
          { r with fullName := pyStrip fN, phone := pyStrip ph,
                   neighborhood := pyStrip nb }
         else r)) ∧
    (∀ (i : Nat) (r r2 : Record), s.alumni[i]? = some r →
      (api_admin_put_json s aid fN ph nb).1.alumni[i]? = some r2 →
      r2.photo = r.photo) := by
  have h4 : ∀ (i : Nat) (r : Record), s.alumni[i]? = some r →
      (api_admin_put_json s aid fN ph nb).1.alumni[i]? = some
        (if r.id = aid then
          { r with fullName := pyStrip fN, phone := pyStrip ph,
                   neighborhood := pyStrip nb }
         else r) := by
    intro i r hr
    show (updateTextRow s.alumni aid (pyStrip fN) (pyStrip ph) (pyStrip nb))[i]? = _
    unfold updateTextRow
    rw [List.getElem?_map, hr]
    by_cases hc : r.id = aid
    · simp [hc]
    · simp [hc]
  have h5 : ∀ (i : Nat) (r r2 : Record), s.alumni[i]? = some r →
      (api_admin_put_json s aid fN ph nb).1.alumni[i]? = some r2 →
      r2.photo = r.photo := by
    intro i r r2 hr hr2
    rw [h4 i r hr] at hr2
    have := Option.some.inj hr2
    by_cases hc : r.id = aid
    · rw [hc] at this
      simp at this
      rw [← this]
    · rw [if_neg hc] at this
      rw [← this]
  rcases hno with rfl | rfl
  · exact ⟨rfl, rfl, rfl, h4, h5⟩
  · exact ⟨rfl, rfl, rfl, h4, h5⟩

/-- Witness for `edit_without_photo_preserves_photo`: editing record 1 of
`sW` through the multipart path with no file keeps its photo key. -/
theorem edit_without_photo_preserves_photo_witness :
    (api_admin_put_multipart sW 1 "New".toList "9".toList "Z".toList none []).1.alumni
      = (api_admin_put_json sW 1 "New".toList "9".toList "Z".toList).1.alumni ∧
    (api_admin_put_json sW 1 "New".toList "9".toList "Z".toList).1.alumni[0]?
      = some ⟨1, "New".toList, "9".toList, "Z".toList, "j.jpg".toList, true, 0⟩ := by
  have h := edit_without_photo_preserves_photo sW 1 "New".toList "9".toList "Z".toList
      [] none (Or.inl rfl)
  refine ⟨h.2.2.1, ?_⟩
  have := h.2.2.2.1 0
      ⟨1, "Jane".toList, "555".toList, "Riverside".toList, "j.jpg".toList, true, 0⟩
      (by decide)
  simpa using this

/-- C7: a submission whose photo filename has a disallowed (or missing)
extension is rejected with the file-type error before any write: the
returned state is exactly the input state — no file saved, no row
inserted. -/
theorem submit_rejects_bad_extension (s : AppState) (fN ph nb orig storedName : Str)
    (now : Nat)
    (hname : pyStrip fN ≠ []) (hphone : pyStrip ph ≠ []) (horig : orig ≠ [])
    (hext : ∀ e, afterLastDot orig = some e → e.map asciiLower ∉ ALLOWED_EXT) :
    submit s fN ph nb (some orig) storedName now = (s, SubmitOut.fileTypeError) := by
  have hnE : (pyStrip fN).isEmpty = false := List.isEmpty_eq_false.mpr hname
  have hpE : (pyStrip ph).isEmpty = false := List.isEmpty_eq_false.mpr hphone
  have hoE : orig.isEmpty = false := List.isEmpty_eq_false.mpr horig
  have hall : allowed_file orig = false := by
    unfold allowed_file
    cases hd : afterLastDot orig with
    | none => rfl
    | some e =>
      cases hc : ALLOWED_EXT.contains (e.map asciiLower) with
      | false => exact hc
      | true => exact absurd (List.elem_iff.mp hc) (hext e hd)
  simp [submit, hnE, hpE, hoE, hall]

/-- Witness for `submit_rejects_bad_extension`: uploading `malware.exe`
on `sW` changes nothing and reports the file-type error. -/
theorem submit_rejects_bad_extension_witness :
    submit sW "Eve".toList "1".toList "X".toList (some "malware.exe".toList)
      "9_malware.exe".toList 5 = (sW, SubmitOut.fileTypeError) :=
  submit_rejects_bad_extension sW "Eve".toList "1".toList "X".toList
    "malware.exe".toList "9_malware.exe".toList 5 (by decide) (by decide) (by decide)
    (fun e he => by
      have hv : afterLastDot "malware.exe".toList = some "exe".toList := by decide
      rw [hv] at he
      injection he with h2
      subst h2
      decide)

/-- C4: the export's CSV part starts with the fixed header, has exactly
one data row per approved Record, data rows ordered by the name cell;
every approved Record appears (its photo cell being its stored photo key,
the empty string when absent, regardless of whether the file exists); and
the archive's photo entries are exactly `photos/<key>` for the referenced
photo files that exist in the upload directory. -/
theorem download_zip_spec (s : AppState) :
    (download_zip s).csv.head? = some csvHeader ∧
    (download_zip s).csv.tail.length = (s.alumni.filter (fun r => r.approved)).length ∧
    List.Pairwise (fun a b : List Str => a.getD 1 [] ≤ b.getD 1 [])
      (download_zip s).csv.tail ∧
    (∀ row ∈ (download_zip s).csv.tail,
      ∃ r, r ∈ s.alumni ∧ r.approved = true ∧ row = csvRow r) ∧
    (∀ r ∈ s.alumni, r.approved = true → csvRow r ∈ (download_zip s).csv.tail) ∧
    (∀ r ∈ s.alumni, r.approved = true → (csvRow r).getD 4 [] = r.photo) ∧
    (∀ e, e ∈ (download_zip s).photoEntries ↔
      ∃ r, r ∈ s.alumni ∧ r.approved = true ∧ r.photo ≠ [] ∧ r.photo ∈ s.files ∧
        e = "photos/".toList ++ r.photo) := by
  have hcsv : (download_zip s).csv
      = csvHeader ::
        (List.insertionSort nameLe (s.alumni.filter (fun r => r.approved))).map csvRow := rfl
  have hent : (download_zip s).photoEntries
      = ((List.insertionSort nameLe (s.alumni.filter (fun r => r.approved))).filter
          (fun r => !r.photo.isEmpty && s.files.contains r.photo)).map
          (fun r => "photos/".toList ++ r.photo) := rfl
  have hperm := List.perm_insertionSort nameLe (s.alumni.filter (fun r => r.approved))
  have hsorted := List.sorted_insertionSort nameLe (s.alumni.filter (fun r => r.approved))
  refine ⟨by rw [hcsv]; rfl, ?_, ?_, ?_, ?_, ?_, ?_⟩
  · rw [hcsv]
    simp
  · rw [hcsv]
    simp only [List.tail_cons]
    exact List.Pairwise.map csvRow (fun a b h => h) hsorted
  · intro row hrow
    rw [hcsv] at hrow
    simp only [List.tail_cons] at hrow
    obtain ⟨a, ha, rfl⟩ := List.mem_map.mp hrow
    have hmem := List.mem_filter.mp (hperm.mem_iff.mp ha)
    exact ⟨a, hmem.1, hmem.2, rfl⟩
  · intro r hr happ
    rw [hcsv]
    simp only [List.tail_cons]
    exact List.mem_map_of_mem csvRow (hperm.mem_iff.mpr (List.mem_filter.mpr ⟨hr, happ⟩))
  · intro r _ _
    rfl
  · intro e
    rw [hent]
    constructor
    · intro he
      obtain ⟨a, ha, rfl⟩ := List.mem_map.mp he
      have h1 := List.mem_filter.mp ha
      have h2 := List.mem_filter.mp (hperm.mem_iff.mp h1.1)
      have h3 : (!a.photo.isEmpty) = true ∧ s.files.contains a.photo = true := by
        simpa using h1.2
      refine ⟨a, h2.1, h2.2, ?_, List.elem_iff.mp h3.2, rfl⟩
      have h4 := h3.1
      rw [Bool.not_eq_true'] at h4
      exact List.isEmpty_eq_false.mp h4
    · rintro ⟨r, hr, happ, hph, hfile, rfl⟩
      apply List.mem_map_of_mem
      apply List.mem_filter.mpr
      refine ⟨hperm.mem_iff.mpr (List.mem_filter.mpr ⟨hr, happ⟩), ?_⟩
      have h1 : r.photo.isEmpty = false := List.isEmpty_eq_false.mpr hph
      have h2 : s.files.contains r.photo = true := List.elem_iff.mpr hfile
      simp [h1, h2, hfile]

/-- Witness for `download_zip_spec` at `sW`: the approved record appears
in the table and its photo file in the archive. -/
theorem download_zip_spec_witness :
    (download_zip sW).csv.head? = some csvHeader ∧
    csvRow ⟨1, "Jane".toList, "555".toList, "Riverside".toList, "j.jpg".toList, true, 0⟩
      ∈ (download_zip sW).csv.tail ∧
    "photos/j.jpg".toList ∈ (download_zip sW).photoEntries := by
  have h := download_zip_spec sW
  refine ⟨h.1, ?_, ?_⟩
  · exact h.2.2.2.2.1
      ⟨1, "Jane".toList, "555".toList, "Riverside".toList, "j.jpg".toList, true, 0⟩
      (by decide) (by decide)
  · exact (h.2.2.2.2.2.2 "photos/j.jpg".toList).mpr
      ⟨⟨1, "Jane".toList, "555".toList, "Riverside".toList, "j.jpg".toList, true, 0⟩,
       by decide, by decide, by decide, by decide, by decide⟩

/-- C9: a successful registration appends one user whose admin flag is
decided once, at creation: admin iff the configured administrator
username matches the (trimmed) registering username, or else iff the
users table was empty at registration time — so the first registrant is
admin and any later non-matching registrant is not. -/
theorem register_bootstrap (users : List User) (envAdmin : Option Str)
    (username password pwHash : Str) (newId : Nat)
    (hu : pyStrip username ≠ []) (hp : password ≠ [])
    (hfresh : ∀ u ∈ users, u.username ≠ pyStrip username) :
    ∃ u : User,
      register users envAdmin username password pwHash newId
        = (users ++ [u], RegOut.created) ∧
      u.username = pyStrip username ∧
      (u.is_admin = true ↔
        (envAdminMatches envAdmin (pyStrip username) = true ∨ users = [])) ∧
      (users = [] → u.is_admin = true) ∧
      (users ≠ [] → envAdminMatches envAdmin (pyStrip username) = false →
        u.is_admin = false) := by
  have huE : (pyStrip username).isEmpty = false := List.isEmpty_eq_false.mpr hu
  have hpE : password.isEmpty = false := List.isEmpty_eq_false.mpr hp
  have hany : users.any (fun u => u.username == pyStrip username) = false :=
    List.any_eq_false.mpr (fun x hx => by simp [hfresh x hx])
  refine ⟨⟨newId, pyStrip username, pwHash,
      if envAdminMatches envAdmin (pyStrip username) then true else users.length == 0⟩,
      ?_, rfl, ?_, ?_, ?_⟩
  · simp [register, huE, hpE, hany]
  · by_cases hm : envAdminMatches envAdmin (pyStrip username) = true
    · simp [hm]
    · rw [Bool.not_eq_true] at hm
      simp [hm, List.length_eq_zero]
  · intro hnil
    subst hnil
    by_cases hm : envAdminMatches envAdmin (pyStrip username) = true
    · simp [hm]
    · rw [Bool.not_eq_true] at hm
      simp [hm]
  · intro hne hm
    have hlen : users.length ≠ 0 := fun h => hne (List.length_eq_zero.mp h)
    simp [hm, hlen]

/-- Witness for `register_bootstrap`: "alice" registers first and becomes
admin, "bob" registers second (no override configured) and does not. -/
theorem register_bootstrap_witness :
    (∃ u : User, register [] none "alice".toList "pw".toList "H".toList 1
        = ([] ++ [u], RegOut.created) ∧ u.is_admin = true) ∧
    (∃ u : User, register [⟨1, "alice".toList, "H".toList, true⟩] none "bob".toList
        "pw".toList "H2".toList 2
        = ([⟨1, "alice".toList, "H".toList, true⟩] ++ [u], RegOut.created) ∧
        u.is_admin = false) := by
  constructor
  · obtain ⟨u, h1, _, _, h4, _⟩ := register_bootstrap [] none "alice".toList "pw".toList
      "H".toList 1 (by decide) (by decide) (fun u hu => absurd hu (List.not_mem_nil u))
    exact ⟨u, h1, h4 rfl⟩
  · obtain ⟨u, h1, _, _, _, h5⟩ := register_bootstrap
      [⟨1, "alice".toList, "H".toList, true⟩] none "bob".toList "pw".toList "H2".toList 2
      (by decide) (by decide)
      (fun u hu => by
        rw [List.mem_singleton] at hu
        subst hu
        decide)
    exact ⟨u, h1, h5 (by decide) (by decide)⟩

/-- `anyTail` only depends on the values of its predicate. -/
lemma anyTail_congr {f g : Str → Bool} (h : ∀ t, f t = g t) :
    ∀ t, anyTail f t = anyTail g t := by
  intro t
  induction t with
  | nil => simp [anyTail, h]
  | cons c ts ih => simp [anyTail, h, ih]

/-- Some suffix (namely the empty one) is always empty. -/
lemma anyTail_isEmpty (t : Str) : anyTail (fun x => x.isEmpty) t = true := by
  induction t with
  | nil => rfl
  | cons c ts ih => simp [anyTail, ih]

/-- A wildcard-free literal pattern followed by `%` matches a text iff the
case-folded literal starts the case-folded text. -/
lemma likeMatch_lit_pct (q : Str) (hq : ∀ c ∈ q, c ≠ '%' ∧ c ≠ '_') :
    ∀ t, likeMatch (q ++ ['%']) t
      = (q.map asciiLower).isPrefixOf (t.map asciiLower) := by
  induction q with
  | nil =>
    intro t
    have h1 : likeMatch ([] ++ ['%']) t = anyTail (likeMatch []) t := by
      simp [likeMatch]
    have h2 : anyTail (likeMatch []) t = anyTail (fun x => x.isEmpty) t :=
      anyTail_congr (fun x => by simp [likeMatch]) t
    rw [h1, h2, anyTail_isEmpty]
    simp [List.isPrefixOf]
  | cons c q ih =>
    intro t
    have hc := hq c (List.mem_cons_self c q)
    have hq' : ∀ x ∈ q, x ≠ '%' ∧ x ≠ '_' :=
      fun x hx => hq x (List.mem_cons_of_mem c hx)
    have hcp : (c == '%') = false := by simp [hc.1]
    have hcu : (c == '_') = false := by simp [hc.2]
    cases t with
    | nil => simp [likeMatch, hcp, List.isPrefixOf]
    | cons d ts =>
      have hrec := ih hq' ts
      simp [likeMatch, hcp, hcu, List.isPrefixOf, hrec]

/-- For a query containing no `LIKE` wildcard, the SQL `%q%` match is
exactly the spec's case-insensitive substring containment. -/
lemma sqlLikeContains_eq_specContains (text q : Str)
    (hq : ∀ c ∈ q, c ≠ '%' ∧ c ≠ '_') :
    sqlLikeContains text q = specContains text q := by
  unfold sqlLikeContains specContains
  have h1 : likeMatch ('%' :: (q ++ ['%'])) text
      = anyTail (likeMatch (q ++ ['%'])) text := by
    simp [likeMatch]
  rw [h1]
  exact anyTail_congr (fun t => likeMatch_lit_pct q hq t) text

/-- C8 counterexample: with the non-empty query `"_"`, the search returns
the approved record "Jane" of `sW` although "Jane" does not contain `"_"`
as a (case-insensitive) substring — the underscore acts as a SQL LIKE
wildcard. -/
theorem approved_search_wildcard_counterexample :
    (⟨1, "Jane".toList, "555".toList, "Riverside".toList, "j.jpg".toList, true, 0⟩ : Record)
      ∈ api_approved sW "_".toList ∧
    pyStrip "_".toList ≠ [] ∧
    specContains "Jane".toList "_".toList = false := by
  decide

/-- C8 (amended): `listApproved(q)` returns exactly the approved Records,
sorted by name; an empty (after trimming) query returns them all, a
non-empty query keeps exactly those whose `fullName` matches the SQL
`LIKE` pattern `%q%` ASCII-case-insensitively, where `%` and `_` inside
`q` act as wildcards; for a query containing neither wildcard this is
precisely case-insensitive substring containment. -/
theorem api_approved_spec (s : AppState) (q : Str) :
    List.Sorted nameLe (api_approved s q) ∧
    (api_approved s q).Perm (s.alumni.filter (fun r =>
      r.approved && ((pyStrip q).isEmpty || sqlLikeContains r.fullName (pyStrip q)))) ∧
    (∀ r : Record, r ∈ api_approved s q ↔ r ∈ s.alumni ∧ r.approved = true ∧
      (pyStrip q = [] ∨ sqlLikeContains r.fullName (pyStrip q) = true)) ∧
    (∀ text qq : Str, (∀ c ∈ qq, c ≠ '%' ∧ c ≠ '_') →
      sqlLikeContains text qq = specContains text qq) := by
  have hdef : api_approved s q
      = List.insertionSort nameLe (s.alumni.filter (fun r =>
          r.approved && ((pyStrip q).isEmpty || sqlLikeContains r.fullName (pyStrip q)))) := by
    show (if (pyStrip q).isEmpty then
            List.insertionSort nameLe (s.alumni.filter (fun r => r.approved))
          else
            List.insertionSort nameLe (s.alumni.filter (fun r =>
              r.approved && sqlLikeContains r.fullName (pyStrip q)))) = _
    cases he : (pyStrip q).isEmpty with
    | true =>
      simp only [if_true]
      apply congrArg
      apply List.filter_congr
      intro x _
      simp
    | false =>
      simp only [Bool.false_eq_true, if_false]
      apply congrArg
      apply List.filter_congr
      intro x _
      simp
  refine ⟨?_, ?_, ?_, fun text qq hq => sqlLikeContains_eq_specContains text qq hq⟩
  · rw [hdef]
    exact List.sorted_insertionSort nameLe _
  · rw [hdef]
    exact List.perm_insertionSort nameLe _
  · intro r
    rw [hdef, (List.perm_insertionSort nameLe _).mem_iff, List.mem_filter]
    constructor
    · rintro ⟨h1, h2⟩
      have h3 : r.approved = true ∧
          ((pyStrip q).isEmpty || sqlLikeContains r.fullName (pyStrip q)) = true := by
        simpa using h2
      refine ⟨h1, h3.1, ?_⟩
      have h4 : (pyStrip q).isEmpty = true ∨
          sqlLikeContains r.fullName (pyStrip q) = true := by
        simpa using h3.2
      rcases h4 with h | h
      · exact Or.inl (List.isEmpty_iff.mp h)
      · exact Or.inr h
    · rintro ⟨h1, h2, h3⟩
      refine ⟨h1, ?_⟩
      rcases h3 with h | h
      · simp [h2, h]
      · simp [h2, h]

/-- Witness for `api_approved_spec` at `sW` with the query `"ane"`. -/
theorem api_approved_spec_witness :
    List.Sorted nameLe (api_approved sW "ane".toList) ∧
    (⟨1, "Jane".toList, "555".toList, "Riverside".toList, "j.jpg".toList, true, 0⟩ : Record)
      ∈ api_approved sW "ane".toList ∧
    sqlLikeContains "Jane".toList "ane".toList = specContains "Jane".toList "ane".toList := by
  have h := api_approved_spec sW "ane".toList
  refine ⟨h.1, ?_, ?_⟩
  · exact (h.2.2.1 ⟨1, "Jane".toList, "555".toList, "Riverside".toList, "j.jpg".toList,
      true, 0⟩).mpr ⟨by decide, by decide, Or.inr (by decide)⟩
  · exact h.2.2.2 "Jane".toList "ane".toList (by decide)
